import Mathlib

/-!
Verification of the UPCCodes label-extraction pipeline.

The definitions below are a shallow embedding of the Python sources of the
repository (upc-validator/backend/app/extractors/common.py, classifier.py,
rfid.py, backend/app/extractors/carelabel.py and
upc-validator/backend/app/validation.py).  Strings are modelled as lists of
characters; the regular expressions of the source are embedded as explicit
leftmost-match backtracking scanners over ASCII text, and the Python string
primitives (strip, isdigit, upper, replace) are modelled on their ASCII
behaviour.
-/

set_option maxRecDepth 8000

namespace UPCCodes

/-! Character helpers mirroring the ASCII behaviour of the Python string and
regular-expression primitives used by the repository. -/

def isAsciiDigit (c : Char) : Bool := 48 ≤ c.toNat && c.toNat ≤ 57

def isAsciiUpper (c : Char) : Bool := 65 ≤ c.toNat && c.toNat ≤ 90

def isAsciiLower (c : Char) : Bool := 97 ≤ c.toNat && c.toNat ≤ 122

def isAsciiLetter (c : Char) : Bool := isAsciiUpper c || isAsciiLower c

/-- Characters matched by the Python regex class backslash-s on ASCII text. -/
def isPySpace (c : Char) : Bool :=
  c = ' ' || c = '\t' || c = '\n' || c = '\r' || c = '\x0b' || c = '\x0c'

/-- Characters matched by the Python regex word class on ASCII text. -/
def isWordChar (c : Char) : Bool := isAsciiLetter c || isAsciiDigit c || c = '_'

def toLowerA (c : Char) : Char :=
  if isAsciiUpper c then Char.ofNat (c.toNat + 32) else c

def toUpperA (c : Char) : Char :=
  if isAsciiLower c then Char.ofNat (c.toNat - 32) else c

/-- Printable ASCII range 0x20 to 0x7E used by the first normalisation step. -/
def isPrintable (c : Char) : Bool := 0x20 ≤ c.toNat && c.toNat ≤ 0x7E

/-- Value of an ASCII digit character, as Python int() on a digit. -/
def charDigit (c : Char) : Nat := c.toNat - 48

/-- Python str.strip with no argument: remove leading and trailing whitespace. -/
def pyStrip (l : List Char) : List Char :=
  ((l.dropWhile isPySpace).reverse.dropWhile isPySpace).reverse

/-! Embedding of normalize_text
(upc-validator/backend/app/extractors/common.py lines 18 to 22). -/

/-- First re.sub of normalize_text: every character outside the printable
ASCII range becomes a single space. -/
def replaceNonPrintable (l : List Char) : List Char :=
  l.map (fun c => if isPrintable c then c else ' ')

/-- Second re.sub of normalize_text: every whitespace run collapses to one
space.  The fuel argument bounds the recursion; list length is enough fuel. -/
def collapseWs : Nat → List Char → List Char
  | 0, l => l
  | _ + 1, [] => []
  | fuel + 1, c :: rest =>
    if isPySpace c then ' ' :: collapseWs fuel (rest.dropWhile isPySpace)
    else c :: collapseWs fuel rest

/-- Greedy tail of the digit-rejoining pattern: one or more whitespace
characters followed by a digit.  Backtracking to a shorter whitespace run can
never succeed because the next character would again be whitespace. -/
def spacesThenDigit (l : List Char) : Option (Char × List Char) :=
  match l with
  | [] => none
  | c :: _ =>
    if isPySpace c then
      match l.dropWhile isPySpace with
      | [] => none
      | d :: r => if isAsciiDigit d then some (d, r) else none
    else none

/-- Third re.sub of normalize_text: a single left-to-right pass over the text
replacing each non-overlapping digit-whitespace-digit occurrence by the two
digits.  As in Python re.sub, scanning resumes after the replaced text, so the
right-hand digit of one replacement cannot start another one in the same
pass. -/
def mergeDigits : Nat → List Char → List Char
  | 0, l => l
  | _ + 1, [] => []
  | fuel + 1, c :: rest =>
    if isAsciiDigit c then
      match spacesThenDigit rest with
      | some (d, rest2) => c :: d :: mergeDigits fuel rest2
      | none => c :: mergeDigits fuel rest
    else c :: mergeDigits fuel rest

/-- Embeds normalize_text from
upc-validator/backend/app/extractors/common.py lines 18 to 22. -/
def normalize_text (text : String) : String :=
  let s1 := replaceNonPrintable text.data
  let s2 := collapseWs s1.length s1
  let s3 := mergeDigits s2.length s2
  String.mk (pyStrip s3)

/-! Embedding of is_valid_upc_ean
(upc-validator/backend/app/extractors/common.py lines 59 to 70). -/

/-- Python str.isdigit on ASCII text: non-empty and all digit characters. -/
def pyIsDigit (l : List Char) : Bool := !l.isEmpty && l.all isAsciiDigit

/-- Embeds is_valid_upc_ean from
upc-validator/backend/app/extractors/common.py lines 59 to 70.  The pop of
the check digit becomes getLast?, the remaining body is dropLast, and the two
weighted sums read the body by index over range(11), or range(12), exactly as
the source comprehensions do. -/
def is_valid_upc_ean (code : String) : Bool :=
  if !pyIsDigit code.data then false
  else
    let digits := code.data.map charDigit
    let check := (digits.getLast?).getD 0
    let body := digits.dropLast
    if code.data.length = 12 then
      ((10 - (((List.range 11).map
        (fun i => if i % 2 = 0 then body.getD i 0 * 3 else body.getD i 0)).sum % 10)) % 10)
        == check
    else if code.data.length = 13 then
      ((10 - (((List.range 12).map
        (fun i => if i % 2 = 1 then body.getD i 0 * 3 else body.getD i 0)).sum % 10)) % 10)
        == check
    else false

/-! Reference formulation of the check-digit rule, following the words of the
specification, used to state the claim about is_valid_upc_ean. -/

/-- Reference weight from the specification: for a 12 digit code the body
digit at an even 0-based index is weighted 3 and at an odd index 1; for a 13
digit code the parity roles are swapped. -/
def refWeight (len i : Nat) : Nat :=
  if len = 12 then (if i % 2 = 0 then 3 else 1) else (if i % 2 = 1 then 3 else 1)

/-- Reference validity predicate written from the specification: the code is
all digits, its length is 12 or 13, and its last digit equals
(10 - (weighted sum mod 10)) mod 10 over the body digits. -/
def refValid (code : String) : Prop :=
  (∀ c ∈ code.data, isAsciiDigit c = true) ∧
  (code.length = 12 ∨ code.length = 13) ∧
  ∃ d, code.data.getLast? = some d ∧
    charDigit d =
      (10 - (((List.range (code.length - 1)).map
        (fun i => refWeight code.length i * charDigit (code.data.getD i '0'))).sum % 10)) % 10

/-! Generic helpers for the leftmost-match backtracking scanners that embed
the regular expressions of the source.  matchLit consumes an exact literal,
matchLitCI consumes a literal up to ASCII case, both returning the remaining
text on success. -/

def matchLit : List Char → List Char → Option (List Char)
  | [], l => some l
  | _ :: _, [] => none
  | p :: ps, c :: cs => if c = p then matchLit ps cs else none

def matchLitCI : List Char → List Char → Option (List Char)
  | [], l => some l
  | _ :: _, [] => none
  | p :: ps, c :: cs => if toLowerA c = toLowerA p then matchLitCI ps cs else none

/-- Word-boundary test on the left of a match position: start of text or a
preceding non-word character. -/
def boundaryPrev (prev : Option Char) : Bool :=
  match prev with
  | none => true
  | some p => !isWordChar p

/-- Word-boundary test on the right of a match: end of text or a following
non-word character. -/
def boundaryNext (l : List Char) : Bool :=
  match l with
  | [] => true
  | c :: _ => !isWordChar c

/-- Case-insensitive substring search, as re.search of a plain literal with
re.IGNORECASE. -/
def containsCI (needle : List Char) : List Char → Bool
  | [] => (matchLitCI needle []).isSome
  | l@(_ :: cs) => (matchLitCI needle l).isSome || containsCI needle cs

/-! Embedding of extract_upc_candidate and extract_valid_upc
(upc-validator/backend/app/extractors/common.py lines 73 to 86). -/

/-- Candidate label variants tried by the optional prefix group
EAN/UPC alternation, in regex backtracking order, each given as the literal
it consumes. -/
def upcLabelVariants : List (List Char) :=
  [['E','A','N','/','U','P','C'], ['E','A','N','U','P','C'],
   ['E','A','N'], ['U','P','C']]

/-- Attempt of the UPC candidate pattern at one position: an optional
EAN/UPC, EAN or UPC label (case-insensitive), a greedy whitespace run, then a
digit followed by 10 to 15 further digits or whitespace characters, taken
greedily.  Returns the captured group. -/
def tryUpcAt (l : List Char) : Option (List Char) :=
  (upcLabelVariants.map (fun v => matchLitCI v l) ++ [some l]).findSome?
    (fun rem =>
      match rem with
      | none => none
      | some r =>
        match r.dropWhile isPySpace with
        | [] => none
        | c :: rest =>
          if isAsciiDigit c then
            let run := rest.takeWhile (fun d => isAsciiDigit d || isPySpace d)
            let t := min 15 run.length
            if 10 ≤ t then some (c :: run.take t) else none
          else none)

def searchUpcAux : List Char → Option (List Char)
  | [] => none
  | l@(_ :: cs) =>
    match tryUpcAt l with
    | some g => some g
    | none => searchUpcAux cs

/-- Embeds extract_upc_candidate from
upc-validator/backend/app/extractors/common.py lines 73 to 79. -/
def extract_upc_candidate (text : String) : String :=
  let normalized := normalize_text text
  match searchUpcAux normalized.data with
  | none => ""
  | some g =>
    let digs := g.filter (fun c => !isPySpace c)
    if digs.length = 12 ∨ digs.length = 13 then String.mk digs else ""

/-- Embeds extract_valid_upc from
upc-validator/backend/app/extractors/common.py lines 82 to 86. -/
def extract_valid_upc (text : String) : String :=
  let candidate := extract_upc_candidate text
  if candidate = "" then ""
  else if is_valid_upc_ean candidate then candidate else ""

/-! Embedding of the field extraction helpers of
backend/app/extractors/carelabel.py. -/

/-- Alternatives of the letter-size token pattern, in alternation order. -/
def sizeAlts : List (List Char) :=
  [['X','X','X','L'], ['X','X','L'], ['X','L'], ['L'], ['M'], ['S'], ['X','S']]

/-- Attempt of the size token alternation at one position, requiring a word
boundary after the token; the boundary before is checked by the caller. -/
def trySizeTok (l : List Char) : Option (List Char) :=
  sizeAlts.findSome? (fun alt =>
    match matchLit alt l with
    | some rest => if boundaryNext rest then some alt else none
    | none => none)

def searchSizeTok : Option Char → List Char → Option (List Char)
  | _, [] => none
  | prev, l@(c :: cs) =>
    match (if boundaryPrev prev then trySizeTok l else none) with
    | some alt => some alt
    | none => searchSizeTok (some c) cs

/-- Attempt of the constructed pattern size-token, optional whitespace, an
opening parenthesis, one or more non-parenthesis characters (greedy), and a
closing parenthesis; returns the inner group. -/
def trySizeRange (size : List Char) (l : List Char) : Option (List Char) :=
  match matchLit size l with
  | none => none
  | some r1 =>
    match r1.dropWhile isPySpace with
    | '(' :: r2 =>
      let inner := r2.takeWhile (fun c => c ≠ ')')
      if inner.isEmpty then none
      else
        match r2.dropWhile (fun c => c ≠ ')') with
        | ')' :: _ => some inner
        | _ => none
    | _ => none

def searchSizeRange (size : List Char) : List Char → Option (List Char)
  | [] => none
  | l@(_ :: cs) =>
    match trySizeRange size l with
    | some inner => some inner
    | none => searchSizeRange size cs

/-- Second stage of the numeric size alternative: whitespace, a dash,
whitespace, then one or two digits with a trailing word boundary, trying the
longer digit take first as the greedy quantifier does. -/
def tryNumRangeDash (d1 : List Char) (rest1 : List Char) : Option (List Char) :=
  let ws1 := rest1.takeWhile isPySpace
  match rest1.dropWhile isPySpace with
  | '-' :: rest2 =>
    let ws2 := rest2.takeWhile isPySpace
    let rest3 := rest2.dropWhile isPySpace
    let drun2 := rest3.takeWhile isAsciiDigit
    if drun2.isEmpty then none
    else
      let take2 :=
        if 2 ≤ drun2.length ∧ boundaryNext (rest3.drop 2) then some (drun2.take 2)
        else if boundaryNext (rest3.drop 1) then some (drun2.take 1)
        else none
      match take2 with
      | some d2 => some (d1 ++ ws1 ++ ['-'] ++ ws2 ++ d2)
      | none => none
  | _ => none

/-- Attempt of the numeric size pattern at one position: either one or two
digits, a dash with optional surrounding whitespace and one or two further
digits, or just one or two digits, all between word boundaries.  Greedy takes
are tried first, as the regex engine does. -/
def tryNumRange (l : List Char) : Option (List Char) :=
  let drun := l.takeWhile isAsciiDigit
  if drun.isEmpty then none
  else
    let alt1 :=
      match (if 2 ≤ drun.length then tryNumRangeDash (drun.take 2) (l.drop 2) else none) with
      | some g => some g
      | none => tryNumRangeDash (drun.take 1) (l.drop 1)
    match alt1 with
    | some g => some g
    | none =>
      if 2 ≤ drun.length ∧ boundaryNext (l.drop 2) then some (drun.take 2)
      else if boundaryNext (l.drop 1) then some (drun.take 1)
      else none

def searchNumRange : Option Char → List Char → Option (List Char)
  | _, [] => none
  | prev, l@(c :: cs) =>
    match (if boundaryPrev prev then tryNumRange l else none) with
    | some g => some g
    | none => searchNumRange (some c) cs

/-- Lookup table mapping numeric ranges to letter sizes
(backend/app/extractors/carelabel.py lines 28 to 36). -/
def rangeMap : List (String × String) :=
  [("0-2", "XS"), ("4-6", "S"), ("8-10", "M"), ("12-14", "L"),
   ("16-18", "XL"), ("20", "XXL"), ("22", "XXXL")]

/-- Embeds the private function for size extraction from
backend/app/extractors/carelabel.py lines 17 to 38, returning the pair of
size and size range. -/
def extractSize (normalized : List Char) : String × String :=
  match searchSizeTok none normalized with
  | some alt =>
    match searchSizeRange alt normalized with
    | some inner => (String.mk alt, String.mk inner)
    | none => (String.mk alt, "")
  | none =>
    match searchNumRange none normalized with
    | some g =>
      let size_range := String.mk (g.filter (fun c => c ≠ ' '))
      match (rangeMap.find? (fun p => p.1 = size_range)).map Prod.snd with
      | some size => (size, size_range)
      | none => ("", size_range)
    | none => ("", "")

/-- Attempt of the RN pattern with optional hash at one position: the
literal RN, an optional hash, optional whitespace and a greedy digit run.
When the hash is absent the whitespace run starts right after RN. -/
def tryRN (l : List Char) : Option (List Char) :=
  match l with
  | 'R' :: 'N' :: rest =>
    let rest2 := match rest with
      | '#' :: r => r
      | _ => rest
    let digits := (rest2.dropWhile isPySpace).takeWhile isAsciiDigit
    if digits.isEmpty then none else some digits
  | _ => none

def searchRN : List Char → Option (List Char)
  | [] => none
  | l@(_ :: cs) =>
    match tryRN l with
    | some g => some g
    | none => searchRN cs

/-- Attempt of the country pattern at one position: the literal Made In or
Hecho En up to case, at least one whitespace character, then a greedy run of
letters and spaces.  When no letter follows the whitespace run, the greedy
quantifier backtracks and can still match a whitespace-only group provided
the run keeps a space after its first character; that group strips to the
empty string. -/
def tryCountry (l : List Char) : Option (List Char) :=
  let lit :=
    match matchLitCI ['m','a','d','e',' ','i','n'] l with
    | some r => some r
    | none => matchLitCI ['h','e','c','h','o',' ','e','n'] l
  match lit with
  | none => none
  | some r =>
    let ws := r.takeWhile isPySpace
    if ws.isEmpty then none
    else
      match r.dropWhile isPySpace with
      | c :: rest =>
        if isAsciiLetter c then
          some (c :: rest.takeWhile (fun d => isAsciiLetter d || d = ' '))
        else if (ws.drop 1).contains ' ' then some [' ']
        else none
      | [] => if (ws.drop 1).contains ' ' then some [' '] else none

def searchCountry : List Char → Option (List Char)
  | [] => none
  | l@(_ :: cs) =>
    match tryCountry l with
    | some g => some g
    | none => searchCountry cs

/-- Embeds the private country extraction from
backend/app/extractors/carelabel.py lines 41 to 45. -/
def extractCountry (text : String) : String :=
  match searchCountry text.data with
  | some g => String.mk (pyStrip g)
  | none => ""

/-! Embedding of the composition extraction
(backend/app/extractors/carelabel.py lines 48 to 55). -/

structure Composition where
  percent : Nat
  material : String
deriving DecidableEq, Repr

/-- Characters of the material class: letters, whitespace, slash, ampersand
and dash. -/
def isMatChar (c : Char) : Bool :=
  isAsciiLetter c || isPySpace c || c = '/' || c = '&' || c = '-'

/-- Numeric value of a digit run, as Python int(). -/
def natOfDigits (l : List Char) : Nat :=
  l.foldl (fun a c => 10 * a + charDigit c) 0

/-- Python split with no argument followed by a single-space join: the
whitespace-separated words of the text joined by single spaces. -/
def pySplitJoin : Nat → List Char → List Char
  | 0, _ => []
  | _ + 1, [] => []
  | fuel + 1, l@(c :: cs) =>
    if isPySpace c then pySplitJoin fuel cs
    else
      let w := l.takeWhile (fun d => !isPySpace d)
      let rest := (l.dropWhile (fun d => !isPySpace d)).dropWhile isPySpace
      if rest.isEmpty then w else w ++ [' '] ++ pySplitJoin fuel rest

/-- Python str.strip with the argument string of space, dot, semicolon and
slash. -/
def stripPunct (l : List Char) : List Char :=
  let p := fun c => c = ' ' || c = '.' || c = ';' || c = '/'
  ((l.dropWhile p).reverse.dropWhile p).reverse

/-- Attempt of the composition pattern at one position: one to three digits
(a longer digit run can never match because the percent sign must follow),
a percent sign, optional whitespace, then a letter followed by a greedy
non-empty run of material characters.  Returns the percent value, the raw
material group, and the text after the match. -/
def tryComp (l : List Char) : Option (Nat × List Char × List Char) :=
  let drun := l.takeWhile isAsciiDigit
  if drun.isEmpty ∨ 3 < drun.length then none
  else
    match l.drop drun.length with
    | '%' :: r =>
      match r.dropWhile isPySpace with
      | c :: rest =>
        if isAsciiLetter c then
          let run := rest.takeWhile isMatChar
          if run.isEmpty then none
          else some (natOfDigits drun, c :: run, rest.drop run.length)
        else none
      | [] => none
    | _ => none

/-- Scanner for re.finditer over the composition pattern: on a match the scan
resumes after the matched text; an entry is kept only when the processed
material is non-empty, as in the source. -/
def compScan : Nat → List Char → List Composition
  | 0, _ => []
  | _ + 1, [] => []
  | fuel + 1, l@(_ :: cs) =>
    match tryComp l with
    | some (pct, g2, rest) =>
      let material := String.mk (stripPunct (pySplitJoin g2.length g2))
      if material ≠ "" then ⟨pct, material⟩ :: compScan fuel rest
      else compScan fuel rest
    | none => compScan fuel cs

/-- Embeds the private composition extraction from
backend/app/extractors/carelabel.py lines 48 to 55. -/
def extractComposition (text : String) : List Composition :=
  compScan text.data.length text.data

/-- Relation between a suffix of the scanned text and a composition entry:
the composition pattern fires at the head of that suffix and processing its
material group yields the entry.  A suffix of the text stands for the
position where it begins, so a strictly shorter suffix begins strictly later
in the text. -/
def compMatchOf (s : List Char) (e : Composition) : Prop :=
  ∃ g2 rest, tryComp s = some (e.percent, g2, rest) ∧
    e.material = String.mk (stripPunct (pySplitJoin g2.length g2))

/-- Attempt of the style pattern of the care-label extractor at one position:
the literal AV then a greedy non-empty run of capitals and digits with a word
boundary after it; a shorter run can never restore the boundary. -/
def tryStyleAV (l : List Char) : Option (List Char) :=
  match l with
  | 'A' :: 'V' :: rest =>
    let run := rest.takeWhile (fun c => isAsciiUpper c || isAsciiDigit c)
    if run.isEmpty then none
    else if boundaryNext (rest.drop run.length) then some ('A' :: 'V' :: run)
    else none
  | _ => none

def searchStyleAV : Option Char → List Char → Option (List Char)
  | _, [] => none
  | prev, l@(c :: cs) =>
    match (if boundaryPrev prev then tryStyleAV l else none) with
    | some g => some g
    | none => searchStyleAV (some c) cs

/-- Record of extracted care-label fields: a missing dictionary key is a none
field, the composition key holds its list (absent when empty), and the
exclusivity flag is stored only as true. -/
structure CareLabelInfo where
  size : Option String
  size_range : Option String
  rn_number : Option String
  upc : Option String
  upc_candidate : Option String
  country_of_origin : Option String
  composition : List Composition
  exclusive_of_decoration : Bool
  style_number : Option String
deriving DecidableEq, Repr

/-- Wraps a possibly empty string as an optional dictionary entry. -/
def optOfString (s : String) : Option String :=
  if s = "" then none else some s

/-- Embeds extract_care_label_info from
backend/app/extractors/carelabel.py lines 95 to 132. -/
def extract_care_label_info (text : String) : CareLabelInfo :=
  let normalized := normalize_text text
  let sz := extractSize normalized.data
  let rn := searchRN normalized.data
  let upc := extract_valid_upc normalized
  let candidate := extract_upc_candidate normalized
  { size := optOfString sz.1
    size_range := optOfString sz.2
    rn_number := rn.map String.mk
    upc := optOfString upc
    upc_candidate := if upc = "" then optOfString candidate else none
    country_of_origin := optOfString (extractCountry text)
    composition := extractComposition text
    exclusive_of_decoration :=
      containsCI "exclusive of decoration".data text.data
    style_number := (searchStyleAV none normalized.data).map String.mk }

/-! Embedding of extract_tag_info
(upc-validator/backend/app/extractors/rfid.py lines 80 to 118). -/

/-- Attempt of the hang-tag size pattern at one position: a letter size token
between word boundaries, optional whitespace, a parenthesised non-empty
group. -/
def tryTagSize (l : List Char) : Option (List Char × List Char) :=
  sizeAlts.findSome? (fun alt =>
    match matchLit alt l with
    | none => none
    | some rest =>
      if boundaryNext rest then
        match rest.dropWhile isPySpace with
        | '(' :: r2 =>
          let inner := r2.takeWhile (fun c => c ≠ ')')
          if inner.isEmpty then none
          else
            match r2.dropWhile (fun c => c ≠ ')') with
            | ')' :: _ => some (alt, inner)
            | _ => none
        | _ => none
      else none)

def searchTagSize : Option Char → List Char → Option (List Char × List Char)
  | _, [] => none
  | prev, l@(c :: cs) =>
    match (if boundaryPrev prev then tryTagSize l else none) with
    | some g => some g
    | none => searchTagSize (some c) cs

/-- Attempt of one colour alternative at one position, case-insensitively:
the first word, at least one whitespace character, the second word.  Returns
the matched text with original casing and the remaining text. -/
def tryColorLit (w1 w2 : List Char) (l : List Char) : Option (List Char × List Char) :=
  match matchLitCI w1 l with
  | none => none
  | some r1 =>
    let ws := r1.takeWhile isPySpace
    if ws.isEmpty then none
    else
      let r2 := r1.dropWhile isPySpace
      match matchLitCI w2 r2 with
      | none => none
      | some r3 => some (l.take w1.length ++ ws ++ r2.take w2.length, r3)

/-- Attempt of the colour alternation BLACK SOOT or SALSA DELIGHT at one
position, in alternation order. -/
def tryColor (l : List Char) : Option (List Char × List Char) :=
  match tryColorLit ['B','L','A','C','K'] ['S','O','O','T'] l with
  | some g => some g
  | none => tryColorLit ['S','A','L','S','A'] ['D','E','L','I','G','H','T'] l

def searchColor : List Char → Option (List Char × List Char)
  | [] => none
  | l@(_ :: cs) =>
    match tryColor l with
    | some g => some g
    | none => searchColor cs

/-- Attempt of the colour-code pattern at one position: a colour alternative,
at least one whitespace character, then a greedy digit run as the second
group. -/
def tryColorCode (l : List Char) : Option (List Char) :=
  match tryColor l with
  | none => none
  | some (_, rest) =>
    let ws := rest.takeWhile isPySpace
    if ws.isEmpty then none
    else
      let digits := (rest.dropWhile isPySpace).takeWhile isAsciiDigit
      if digits.isEmpty then none else some digits

def searchColorCode : List Char → Option (List Char)
  | [] => none
  | l@(_ :: cs) =>
    match tryColorCode l with
    | some g => some g
    | none => searchColorCode cs

/-- Python str.replace of two spaces by one: a single left-to-right pass over
non-overlapping occurrences. -/
def replaceDblSpace : List Char → List Char
  | ' ' :: ' ' :: rest => ' ' :: replaceDblSpace rest
  | c :: rest => c :: replaceDblSpace rest
  | [] => []

/-- Attempt of the hang-tag style pattern at one position: the literal AV,
then maximal non-empty runs of digits, capitals and digits again; a shorter
take of any run would start with a character of the same class and can never
help. -/
def tryTagStyle (l : List Char) : Option (List Char) :=
  match l with
  | 'A' :: 'V' :: rest =>
    let d1 := rest.takeWhile isAsciiDigit
    if d1.isEmpty then none
    else
      let r2 := rest.drop d1.length
      let u := r2.takeWhile isAsciiUpper
      if u.isEmpty then none
      else
        let r3 := r2.drop u.length
        let d2 := r3.takeWhile isAsciiDigit
        if d2.isEmpty then none
        else some ('A' :: 'V' :: (d1 ++ u ++ d2))
  | _ => none

def searchTagStyle : List Char → Option (List Char)
  | [] => none
  | l@(_ :: cs) =>
    match tryTagStyle l with
    | some g => some g
    | none => searchTagStyle cs

/-- Attempt of the hang-tag RN pattern at one position: the literal RN with a
mandatory hash, optional whitespace, then a greedy digit run. -/
def tryRNHash (l : List Char) : Option (List Char) :=
  match l with
  | 'R' :: 'N' :: '#' :: rest =>
    let digits := (rest.dropWhile isPySpace).takeWhile isAsciiDigit
    if digits.isEmpty then none else some digits
  | _ => none

def searchRNHash : List Char → Option (List Char)
  | [] => none
  | l@(_ :: cs) =>
    match tryRNHash l with
    | some g => some g
    | none => searchRNHash cs

/-- Record of extracted hang-tag fields; a missing dictionary key is a none
field. -/
structure TagInfo where
  size : Option String
  size_range : Option String
  upc : Option String
  upc_candidate : Option String
  barcode : Option String
  color : Option String
  color_code : Option String
  style_number : Option String
  rn_number : Option String
deriving DecidableEq, Repr

/-- Embeds extract_tag_info from
upc-validator/backend/app/extractors/rfid.py lines 80 to 118.  The barcode
decoding collaborator is external, so its decoded payloads come in as the
barcodes argument, empty when no tag image is given or nothing decodes. -/
def extract_tag_info (text : String) (barcodes : List String) : TagInfo :=
  let normalized := normalize_text text
  let sz := searchTagSize none normalized.data
  let upc := extract_valid_upc normalized
  let candidate := extract_upc_candidate normalized
  { size := sz.map (fun p => String.mk p.1)
    size_range := sz.map (fun p => String.mk p.2)
    upc := optOfString upc
    upc_candidate := if upc = "" then optOfString candidate else none
    barcode := barcodes.head?
    color := (searchColor normalized.data).map
      (fun p => String.mk (replaceDblSpace (p.1.map toUpperA)))
    color_code := (searchColorCode normalized.data).map String.mk
    style_number := (searchTagStyle normalized.data).map String.mk
    rn_number := (searchRNHash normalized.data).map String.mk }

/-! Embedding of the OCR fallback decision shared by
backend/app/extractors/carelabel.py line 173, rfid.py line 154 and
classifier.py line 14: the OCR collaborator is invoked exactly when this
predicate holds of the embedded text returned for the region or page. -/

/-- Embeds the condition len(text.strip()) less than 20 that guards every
OCR invocation in the repository. -/
def ocr_fallback_needed (text : String) : Bool :=
  decide ((pyStrip text.data).length < 20)

/-- Count of non-whitespace characters of the text, following the words of
the specification for the OCR fallback trigger. -/
def specNonWsCount (text : String) : Nat :=
  text.data.countP (fun c => !isPySpace c)

/-! Embedding of the layout segmentation geometry.  The page, rendering and
OCR objects are external collaborators; the geometric retention decision is
a pure function of the configuration and the page width, embedded here over
the rationals, on which every arithmetic operation of the source (integer
scaling, addition, min, max, comparison) is exact. -/

/-- Body of the column loop of extract_care_labels
(backend/app/extractors/carelabel.py lines 159 to 166) for one column index:
x-bounds from column width and left offset, clamped to the page width, and
none when the clamped right edge is not strictly greater than the left
edge. -/
def careLabelColumn (col_width left_offset page_width : ℚ) (i : Nat) :
    Option (Nat × ℚ × ℚ) :=
  let x0 := left_offset + (i : ℚ) * col_width
  let x1 := left_offset + ((i : ℚ) + 1) * col_width
  let x0c := max 0 (min page_width x0)
  let x1c := max 0 (min page_width x1)
  if x1c ≤ x0c then none else some (i, x0c, x1c)

/-- Embeds the per-page column loop of extract_care_labels from
backend/app/extractors/carelabel.py lines 149 to 179: the column width
defaults to the page width over the column count when the configured width
is falsy, the loop starts at the start index, and each retained column
yields its region via careLabelColumn. -/
def careLabelRegions (columns : Nat) (skip_first_column : Bool)
    (column_width left_offset page_width : ℚ) : List (Nat × ℚ × ℚ) :=
  let col_width := if column_width ≠ 0 then column_width else page_width / columns
  let start_index : Nat := if skip_first_column then 1 else 0
  (List.range columns).filterMap (fun (i : Nat) =>
    if i < start_index then none
    else careLabelColumn col_width left_offset page_width i)

/-- Position indices of the retained care-label regions. -/
def careLabelPositions (columns : Nat) (skip_first_column : Bool)
    (column_width left_offset page_width : ℚ) : List Nat :=
  (careLabelRegions columns skip_first_column column_width left_offset page_width).map
    Prod.fst

/-- Embeds the per-page column loop of extract_hang_tags from
upc-validator/backend/app/extractors/rfid.py lines 132 to 160: the column
width is the page width over the column count, the x-bounds are not clamped
and no column is ever skipped after the start index. -/
def hangTagRegions (columns : Nat) (skip_first_column : Bool)
    (page_width : ℚ) : List (Nat × ℚ × ℚ) :=
  let column_width := page_width / columns
  let start_index : Nat := if skip_first_column then 1 else 0
  (List.range columns).filterMap (fun (i : Nat) =>
    if i < start_index then none
    else some (i, (i : ℚ) * column_width, ((i : ℚ) + 1) * column_width))

/-- Position indices of the hang-tag regions. -/
def hangTagPositions (columns : Nat) (skip_first_column : Bool)
    (page_width : ℚ) : List Nat :=
  (hangTagRegions columns skip_first_column page_width).map Prod.fst

/-! Embedding of the document classifier
(upc-validator/backend/app/extractors/classifier.py lines 9 to 61).  The
page text acquisition is an external collaborator; the classifier proper is
a function of the acquired text. -/

/-- Attempt of the RN token pattern with optional hash between word
boundaries at one position.  When the hash is present the pattern always
matches: greedily the boundary after the hash holds when a word character
follows it, and otherwise the optional hash backtracks and the boundary
after the N holds because the hash is a non-word character. -/
def tryRNTok (l : List Char) : Bool :=
  match matchLitCI ['r','n'] l with
  | none => false
  | some rest =>
    match rest with
    | [] => true
    | '#' :: _ => true
    | c :: _ => !isWordChar c

def searchRNTok : Option Char → List Char → Bool
  | _, [] => false
  | prev, l@(c :: cs) =>
    (boundaryPrev prev && tryRNTok l) || searchRNTok (some c) cs

/-- Attempt of a case-insensitive literal token between word boundaries at
one position; the boundary before is checked by the caller. -/
def tryBoundTokCI (tok : List Char) (l : List Char) : Bool :=
  match matchLitCI tok l with
  | some rest => boundaryNext rest
  | none => false

def searchBoundTokCI (tok : List Char) : Option Char → List Char → Bool
  | _, [] => false
  | prev, l@(c :: cs) =>
    (boundaryPrev prev && tryBoundTokCI tok l) || searchBoundTokCI tok (some c) cs

/-- Attempt of a bounded case-insensitive word pair separated by one or more
whitespace characters at one position. -/
def tryWsPairCI (w1 w2 : List Char) (l : List Char) : Bool :=
  match matchLitCI w1 l with
  | none => false
  | some r1 =>
    let ws := r1.takeWhile isPySpace
    if ws.isEmpty then false
    else
      match matchLitCI w2 (r1.dropWhile isPySpace) with
      | some r2 => boundaryNext r2
      | none => false

def searchWsPairCI (w1 w2 : List Char) : Option Char → List Char → Bool
  | _, [] => false
  | prev, l@(c :: cs) =>
    (boundaryPrev prev && tryWsPairCI w1 w2 l) || searchWsPairCI w1 w2 (some c) cs

/-- Care-label indicator patterns of classify_pdf, each given as its regex
source paired with its embedded matcher. -/
def care_patterns : List (String × (String → Bool)) :=
  [("\\bRN#?\\b", fun t => searchRNTok none t.data),
   ("\\bMade In\\b", fun t => searchBoundTokCI "made in".data none t.data),
   ("\\bHecho En\\b", fun t => searchBoundTokCI "hecho en".data none t.data),
   ("Exclusive of Decoration",
    fun t => containsCI "exclusive of decoration".data t.data),
   ("Body & Pocket", fun t => containsCI "body & pocket".data t.data),
   ("Inner Layer", fun t => containsCI "inner layer".data t.data)]

/-- Hang-tag indicator patterns of classify_pdf. -/
def rfid_patterns : List (String × (String → Bool)) :=
  [("WALMART\\.COM/AVIA", fun t => containsCI "walmart.com/avia".data t.data),
   ("Find more at Walmart\\.com",
    fun t => containsCI "find more at walmart.com".data t.data),
   ("REGISTERED TRADEMARK", fun t => containsCI "registered trademark".data t.data),
   ("AVIA STRETCH", fun t => containsCI "avia stretch".data t.data),
   ("\\bBLACK\\s+SOOT\\b", fun t => searchWsPairCI "black".data "soot".data none t.data),
   ("\\bSALSA\\s+DELIGHT\\b", fun t => searchWsPairCI "salsa".data "delight".data none t.data)]

structure ClassificationResult where
  type : String
  care_score : Nat
  rfid_score : Nat
  care_evidence : List String
  rfid_evidence : List String
deriving DecidableEq, Repr

/-- One scoring loop of classify_pdf: every matching pattern appends its
source to the evidence list and increments the score by one. -/
def scorePatterns (pats : List (String × (String → Bool))) (t : String) :
    List String × Nat :=
  pats.foldl (fun acc p => if p.2 t then (acc.1 ++ [p.1], acc.2 + 1) else acc) ([], 0)

/-- Embeds the scoring and decision part of classify_pdf from
upc-validator/backend/app/extractors/classifier.py lines 18 to 61, as a
function of the acquired first-page text. -/
def classify_text (text : String) : ClassificationResult :=
  let normalized := normalize_text text
  let care := scorePatterns care_patterns normalized
  let rfid := scorePatterns rfid_patterns normalized
  let label :=
    if care.2 = 0 ∧ rfid.2 = 0 then "unknown"
    else if rfid.2 ≤ care.2 then "care_label" else "rfid"
  { type := label
    care_score := care.2
    rfid_score := rfid.2
    care_evidence := care.1
    rfid_evidence := rfid.1 }

/-! Embedding of the reconciliation engine
(upc-validator/backend/app/validation.py lines 7 to 152).  Extracted items
and spreadsheet rows are dictionaries in the source; the fields read by the
matching and validation functions are modelled as optional strings, a
missing key being none. -/

/-- Candidate item as read by the reconciliation engine; only these keys are
ever accessed by it. -/
structure Item where
  style_number : Option String
  size : Option String
  color : Option String
  upc : Option String
  upc_candidate : Option String
  barcode : Option String
deriving DecidableEq, Repr

/-- Expected spreadsheet row as consumed by validate_rows. -/
structure Row where
  style : Option String
  size : Option String
  color : Option String
  care_upc : Option String
  hang_upc : Option String
deriving DecidableEq, Repr

/-- Embeds the private value normaliser from validation.py lines 7 to 11:
none becomes the empty string, otherwise the text is stripped, whitespace
runs collapse to one space and the result is uppercased. -/
def normalizeValue (v : Option String) : String :=
  match v with
  | none => ""
  | some s =>
    let t := pyStrip s.data
    String.mk ((collapseWs t.length t).map toUpperA)

/-- Embeds the private UPC normaliser from validation.py lines 14 to 18:
none becomes the empty string, otherwise every non-digit character is
removed. -/
def normalizeUpc (v : Option String) : String :=
  match v with
  | none => ""
  | some s => String.mk (s.data.filter isAsciiDigit)

/-- Rule 1 of the matcher: style, size and colour all equal, style
non-empty. -/
def matchPred1 (style size color : String) (it : Item) : Bool :=
  normalizeValue it.style_number == style && normalizeValue it.size == size &&
    normalizeValue it.color == color && style ≠ ""

/-- Rule 2 of the matcher: style and size equal, style non-empty. -/
def matchPred2 (style size : String) (it : Item) : Bool :=
  normalizeValue it.style_number == style && normalizeValue it.size == size &&
    style ≠ ""

/-- Rule 3 of the matcher: style and colour equal, style non-empty. -/
def matchPred3 (style color : String) (it : Item) : Bool :=
  normalizeValue it.style_number == style && normalizeValue it.color == color &&
    style ≠ ""

/-- Rule 4 of the matcher: style equal and non-empty. -/
def matchPred4 (style : String) (it : Item) : Bool :=
  normalizeValue it.style_number == style && style ≠ ""

/-- Embeds the private item matcher from validation.py lines 74 to 103: the
four key rules are tried in fixed priority order and within each rule the
first item in iteration order wins. -/
def matchItem (items : List Item) (style size color : String) :
    Option Item × String :=
  if items.isEmpty then (none, "none")
  else
    match items.find? (matchPred1 style size color) with
    | some it => (some it, "style+size+color")
    | none =>
      match items.find? (matchPred2 style size) with
      | some it => (some it, "style+size")
      | none =>
        match items.find? (matchPred3 style color) with
        | some it => (some it, "style+color")
        | none =>
          match items.find? (matchPred4 style) with
          | some it => (some it, "style")
          | none => (none, "none")

/-- One side of a match result: match level, normalised expected and actual
UPC, the comparison flag and the matched item. -/
structure SideResult where
  level : String
  upc_expected : String
  upc_actual : String
  upc_matches : Bool
  item : Option Item
deriving DecidableEq, Repr

structure RowResult where
  row : Row
  care_label : SideResult
  hang_tag : SideResult
deriving DecidableEq, Repr

structure Summary where
  rows : Nat
  care_label_matches : Nat
  hang_tag_matches : Nat
deriving DecidableEq, Repr

structure ValidationOutput where
  summary : Summary
  results : List RowResult
deriving DecidableEq, Repr

/-- One side of the per-row result of validate_rows: the matched item, the
normalised expected and actual UPC values, and the comparison flag that is
true only when both values are non-empty and equal. -/
def sideResult (items : List Item) (style size color : String)
    (expected : Option String) : SideResult :=
  let m := matchItem items style size color
  let upc_expected := normalizeUpc expected
  let upc_actual := normalizeUpc (match m.1 with
    | some it => it.upc
    | none => some "")
  { level := m.2
    upc_expected := upc_expected
    upc_actual := upc_actual
    upc_matches :=
      !(upc_expected == "") && !(upc_actual == "") && upc_expected == upc_actual
    item := m.1 }

/-- Per-row body of the loop of validate_rows (validation.py lines 113 to
144). -/
def rowResult (care_labels hang_tags : List Item) (row : Row) : RowResult :=
  let style := normalizeValue row.style
  let size := normalizeValue row.size
  let color := normalizeValue row.color
  { row := row
    care_label := sideResult care_labels style size color row.care_upc
    hang_tag := sideResult hang_tags style size color row.hang_upc }

/-- Embeds validate_rows from validation.py lines 106 to 152: one result per
row in order, and a summary counting the rows whose care-label and hang-tag
UPC comparisons are true. -/
def validate_rows (rows : List Row) (care_labels hang_tags : List Item) :
    ValidationOutput :=
  let results := rows.map (rowResult care_labels hang_tags)
  { summary :=
      { rows := results.length
        care_label_matches := results.countP (fun r => r.care_label.upc_matches)
        hang_tag_matches := results.countP (fun r => r.hang_tag.upc_matches) }
    results := results }

/-! General list lemmas used by the claim proofs. -/

theorem listGetD_dropLast {α : Type} (l : List α) (i : Nat) (d : α)
    (h : i + 1 < l.length) : l.dropLast.getD i d = l.getD i d := by
  have hi : i < l.dropLast.length := by
    simpa [List.length_dropLast] using Nat.lt_of_succ_lt_succ (by omega)
  have hi2 : i < l.length := by omega
  rw [List.getD_eq_getElem l d hi2, List.getD_eq_getElem _ d hi]
  exact List.getElem_dropLast l i hi

theorem listCountP_dropWhile (p q : α → Bool) (h : ∀ c, q c = true → p c = false) :
    ∀ l : List α, (l.dropWhile q).countP p = l.countP p := by
  intro l
  induction l with
  | nil => rfl
  | cons a t ih =>
    rw [List.dropWhile_cons]
    by_cases ha : q a = true
    · rw [if_pos ha, ih, List.countP_cons, h a ha]
      simp
    · rw [if_neg ha]

theorem listCountP_reverse (p : α → Bool) (l : List α) :
    l.reverse.countP p = l.countP p := by
  rw [List.countP_eq_length_filter, List.countP_eq_length_filter,
    List.filter_reverse, List.length_reverse]

/-! Claim C3.  The specification asserts that the digit-rejoining step is
repeated until no digit-whitespace-digit pair remains and therefore that
normalize_text is idempotent.  The source applies one non-overlapping
re.sub pass, so a digit consumed as the right-hand side of a merge cannot
start another merge in the same call. -/

/-- Claim C3 counterexample: normalize_text is not idempotent; a second
application of the normaliser to the text 1 2 3 changes it again. -/
theorem c3_counterexample_not_idempotent :
    normalize_text (normalize_text "1 2 3") ≠ normalize_text "1 2 3" := by decide

/-- Claim C3 (amended): one application of normalize_text performs a single
left-to-right non-overlapping digit-rejoining pass, so the text 1 2 3
normalises to 12 3 and only a second application reaches 123. -/
theorem c3_single_pass_rejoin :
    normalize_text "1 2 3" = "12 3" ∧ normalize_text "12 3" = "123" ∧
    normalize_text (normalize_text "1 2 3") = "123" := by decide

/-! Claim C2.  The end-to-end care-label scenario of the specification. -/

/-- Claim C2 counterexample: on the text of the scenario the digit-rejoining
step of normalisation merges the RN number and the adjacent 13 digit code
into one 18 digit run, so the extracted RN number is not 12345 and neither
upc nor upc_candidate is populated. -/
theorem c2_counterexample_merged_digits :
    (extract_care_label_info "L (10-12) RN#12345 1234567890128").rn_number ≠
      some "12345" ∧
    (extract_care_label_info "L (10-12) RN#12345 1234567890128").upc = none ∧
    (extract_care_label_info "L (10-12) RN#12345 1234567890128").upc_candidate =
      none := by decide

/-- Claim C2 (amended): the scenario text yields size L and size range 10-12
as claimed, but the rn_number field holds the merged 18 digit run and no UPC
field is produced, because the merged run exceeds the 11 to 16 character
window of the candidate pattern. -/
theorem c2_care_label_scenario_actual :
    extract_care_label_info "L (10-12) RN#12345 1234567890128" =
      { size := some "L"
        size_range := some "10-12"
        rn_number := some "123451234567890128"
        upc := none
        upc_candidate := none
        country_of_origin := none
        composition := []
        exclusive_of_decoration := false
        style_number := none } := by decide

/-! Claim C4.  The specification states that OCR is invoked exactly when the
embedded text has fewer than 20 non-whitespace characters; the source tests
the length of the text stripped of leading and trailing whitespace, which
also counts interior whitespace. -/

/-- Claim C4 counterexample: a text whose trimmed length is 21 but which has
only 11 non-whitespace characters does not trigger OCR, although the claim
says it must. -/
theorem c4_counterexample_interior_whitespace :
    ocr_fallback_needed "a b c d e f g h i j k" = false ∧
    specNonWsCount "a b c d e f g h i j k" < 20 := by decide

/-- Claim C4 (amended): OCR is invoked exactly when the embedded text trimmed
of leading and trailing whitespace has fewer than 20 characters; since
trimming preserves every non-whitespace character, a text with at least 20
non-whitespace characters never triggers OCR, so the at-or-above direction
of the original claim still holds. -/
theorem c4_trimmed_length_threshold :
    ∀ text : String,
      (ocr_fallback_needed text = true ↔ (pyStrip text.data).length < 20) ∧
      (20 ≤ specNonWsCount text → ocr_fallback_needed text = false) := by
  intro t
  constructor
  · simp [ocr_fallback_needed]
  · intro h
    have hc : (pyStrip t.data).countP (fun c => !isPySpace c) = specNonWsCount t := by
      unfold pyStrip specNonWsCount
      rw [listCountP_reverse, listCountP_dropWhile _ _ (fun c hc => by simp [hc]),
        listCountP_reverse, listCountP_dropWhile _ _ (fun c hc => by simp [hc])]
    have hle : specNonWsCount t ≤ (pyStrip t.data).length := by
      rw [← hc]; exact List.countP_le_length _
    simp only [ocr_fallback_needed, decide_eq_false_iff_not]
    omega

/-- Witness for claim C4: a 21 character all-letter text has at least 20
non-whitespace characters and does not trigger OCR. -/
theorem c4_trimmed_length_threshold_witness :
    20 ≤ specNonWsCount "abcdefghijklmnopqrstu" ∧
    ocr_fallback_needed "abcdefghijklmnopqrstu" = false :=
  ⟨by decide, (c4_trimmed_length_threshold "abcdefghijklmnopqrstu").2 (by decide)⟩

/-! Claim C9.  Composition entries. -/

theorem charDigit_le_nine (c : Char) (h : isAsciiDigit c = true) :
    charDigit c ≤ 9 := by
  unfold isAsciiDigit at h
  simp only [Bool.and_eq_true, decide_eq_true_eq] at h
  unfold charDigit
  omega

theorem natOfDigits_le_999 (l : List Char) (hlen : l.length ≤ 3)
    (hd : ∀ c ∈ l, isAsciiDigit c = true) : natOfDigits l ≤ 999 := by
  match l with
  | [] => simp [natOfDigits]
  | [a] =>
    have ha := charDigit_le_nine a (hd a (by simp))
    simp only [natOfDigits, List.foldl]
    omega
  | [a, b] =>
    have ha := charDigit_le_nine a (hd a (by simp))
    have hb := charDigit_le_nine b (hd b (by simp))
    simp only [natOfDigits, List.foldl]
    omega
  | [a, b, c] =>
    have ha := charDigit_le_nine a (hd a (by simp))
    have hb := charDigit_le_nine b (hd b (by simp))
    have hc := charDigit_le_nine c (hd c (by simp))
    simp only [natOfDigits, List.foldl]
    omega
  | _ :: _ :: _ :: _ :: _ => simp at hlen

theorem tryComp_percent_le (l : List Char) (pct : Nat) (g2 rest : List Char)
    (h : tryComp l = some (pct, g2, rest)) : pct ≤ 999 := by
  simp only [tryComp] at h
  split at h
  · exact absurd h (by simp)
  · next hguard =>
    have hlen : (l.takeWhile isAsciiDigit).length ≤ 3 := by
      rcases not_or.mp hguard with ⟨-, h2⟩
      omega
    have hdig : ∀ c ∈ l.takeWhile isAsciiDigit, isAsciiDigit c = true :=
      fun c hc => List.mem_takeWhile_imp hc
    split at h
    · split at h
      · split at h
        · split at h
          · exact absurd h (by simp)
          · simp only [Option.some.injEq, Prod.mk.injEq] at h
            obtain ⟨hpct, -⟩ := h
            exact hpct ▸ natOfDigits_le_999 _ hlen hdig
        · exact absurd h (by simp)
      · exact absurd h (by simp)
    · exact absurd h (by simp)

theorem compScan_entries (fuel : Nat) :
    ∀ (l : List Char), ∀ e ∈ compScan fuel l,
      e.percent ≤ 999 ∧ e.material ≠ "" := by
  induction fuel with
  | zero => intro l e he; simp [compScan] at he
  | succ f ih =>
    intro l e he
    match l with
    | [] => simp [compScan] at he
    | c :: cs =>
      rw [compScan] at he
      cases htc : tryComp (c :: cs) with
      | some t =>
        obtain ⟨pct, g2, rest⟩ := t
        rw [htc] at he
        simp only at he
        by_cases hm : String.mk (stripPunct (pySplitJoin g2.length g2)) ≠ ""
        · rw [if_pos hm] at he
          rcases List.mem_cons.mp he with rfl | hmem
          · exact ⟨tryComp_percent_le _ _ _ _ htc, hm⟩
          · exact ih rest e hmem
        · rw [if_neg hm] at he
          exact ih rest e he
      | none =>
        rw [htc] at he
        exact ih cs e he

/-- Claim C9 counterexample: the percent group is one to three digits, so the
text 150 percent Cotton yields an entry whose percent is 150, above the 100
bound of the claim. -/
theorem c9_counterexample_percent_150 :
    extractComposition "150% Cotton" = [⟨150, "Cotton"⟩] ∧ ¬(150 ≤ 100) := by
  decide

theorem tryComp_rest_suffix (l : List Char) (pct : Nat) (g2 rest : List Char)
    (h : tryComp l = some (pct, g2, rest)) :
    rest <:+ l ∧ rest.length < l.length := by
  simp only [tryComp] at h
  split at h
  · exact absurd h (by simp)
  · split at h
    · next r heq =>
      have h1 : ('%' :: r) <:+ l := heq ▸ List.drop_suffix _ l
      have h2 : r <:+ l := (List.suffix_cons '%' r).trans h1
      have h2l : r.length < l.length := by
        have := h1.length_le
        simp only [List.length_cons] at this
        omega
      split at h
      · next c2 rest2 heq2 =>
        have h3 : (c2 :: rest2) <:+ r := heq2 ▸ List.dropWhile_suffix _
        have h4 : rest2 <:+ r := (List.suffix_cons c2 rest2).trans h3
        have h4l : rest2.length < r.length := by
          have := h3.length_le
          simp only [List.length_cons] at this
          omega
        split at h
        · split at h
          · exact absurd h (by simp)
          · simp only [Option.some.injEq, Prod.mk.injEq] at h
            obtain ⟨-, -, hrest⟩ := h
            subst hrest
            refine ⟨(List.drop_suffix _ _).trans (h4.trans h2), ?_⟩
            rw [List.length_drop]
            omega
        · exact absurd h (by simp)
      · exact absurd h (by simp)
    · exact absurd h (by simp)

/-- The scanner consumes the text left to right: each entry of the result is
matched at a suffix of the scanned text, and successive entries are matched
at strictly shorter, nested suffixes, that is at strictly later positions. -/
theorem compScan_order (fuel : Nat) :
    ∀ l : List Char, ∃ sufs : List (List Char),
      List.Forall₂ compMatchOf sufs (compScan fuel l) ∧
      (∀ s ∈ sufs, s <:+ l) ∧
      List.Chain' (fun s1 s2 => s2.length < s1.length ∧ s2 <:+ s1) sufs := by
  induction fuel with
  | zero =>
    intro l
    exact ⟨[], List.Forall₂.nil, by simp, List.chain'_nil⟩
  | succ f ih =>
    intro l
    match l with
    | [] => exact ⟨[], List.Forall₂.nil, by simp, List.chain'_nil⟩
    | c :: cs =>
      cases htc : tryComp (c :: cs) with
      | none =>
        obtain ⟨sufs, hf, hsuf, hch⟩ := ih cs
        refine ⟨sufs, ?_, ?_, hch⟩
        · rw [compScan, htc]
          exact hf
        · exact fun s hs => (hsuf s hs).trans (List.suffix_cons c cs)
      | some t =>
        obtain ⟨pct, g2, rest⟩ := t
        obtain ⟨hrs, hrl⟩ := tryComp_rest_suffix _ _ _ _ htc
        obtain ⟨sufs, hf, hsuf, hch⟩ := ih rest
        by_cases hm : String.mk (stripPunct (pySplitJoin g2.length g2)) ≠ ""
        · refine ⟨(c :: cs) :: sufs, ?_, ?_, ?_⟩
          · rw [compScan, htc]
            simp only []
            rw [if_pos hm]
            exact List.Forall₂.cons ⟨g2, rest, htc, rfl⟩ hf
          · intro s hs
            rcases List.mem_cons.mp hs with rfl | hs2
            · exact List.suffix_refl _
            · exact (hsuf s hs2).trans hrs
          · refine hch.cons' ?_
            intro y hy
            have hym : y ∈ sufs := List.mem_of_mem_head? hy
            have hys : y <:+ rest := hsuf y hym
            exact ⟨by have := hys.length_le; omega, hys.trans hrs⟩
        · refine ⟨sufs, ?_, ?_, hch⟩
          · rw [compScan, htc]
            simp only []
            rw [if_neg hm]
            exact hf
          · exact fun s hs => (hsuf s hs).trans hrs

/-- Claim C9 (amended): every extracted composition entry has an integer
percent between 0 and 999 inclusive and a non-empty material string, and the
entries appear in the order of their occurrences in the text: the entry list
is matched one-to-one to suffixes of the text at which the composition
pattern fires, and successive suffixes are strictly shorter and nested, so
each later entry begins strictly later in the text. -/
theorem c9_composition_entries :
    ∀ (text : String),
      (∀ e ∈ extractComposition text, e.percent ≤ 999 ∧ e.material ≠ "") ∧
      ∃ sufs : List (List Char),
        List.Forall₂ compMatchOf sufs (extractComposition text) ∧
        (∀ s ∈ sufs, s <:+ text.data) ∧
        List.Chain' (fun s1 s2 => s2.length < s1.length ∧ s2 <:+ s1) sufs := by
  intro t
  exact ⟨fun e he => compScan_entries _ _ e he, compScan_order t.data.length t.data⟩

/-- Witness for claim C9 at a two-entry text. -/
theorem c9_composition_entries_witness :
    (⟨40, "Polyester"⟩ : Composition) ∈
      extractComposition "60% Cotton 40% Polyester." ∧
    ((40 : Nat) ≤ 999 ∧ ("Polyester" : String) ≠ "") ∧
    extractComposition "60% Cotton 40% Polyester." =
      [⟨60, "Cotton"⟩, ⟨40, "Polyester"⟩] :=
  ⟨by decide,
   (c9_composition_entries "60% Cotton 40% Polyester.").1 ⟨40, "Polyester"⟩
     (by decide),
   by decide⟩

/-! Claim C5.  Segmenter region count.  The hang-tag segmenter always yields
seven regions, but the care-label segmenter uses a fixed column width of 88
and left offset of 45, so on a page narrower than 749 units the rightmost
columns clamp to degenerate regions and are dropped. -/

theorem careLabelColumn_of_wide (w : ℚ) (i : Nat)
    (h : 45 + ((i : ℚ) + 1) * 88 ≤ w) :
    careLabelColumn 88 45 w i =
      some (i, 45 + (i : ℚ) * 88, 45 + ((i : ℚ) + 1) * 88) := by
  simp only [careLabelColumn]
  have hc : (0:ℚ) ≤ (i : ℚ) := Nat.cast_nonneg i
  have e1 : 45 + ((i : ℚ) + 1) * 88 = 45 + (i : ℚ) * 88 + 88 := by ring
  rw [min_eq_right (by linarith), max_eq_right (by linarith),
    min_eq_right (by linarith), max_eq_right (by linarith), if_neg (by linarith)]

theorem careLabelColumn_612_6 : careLabelColumn 88 45 612 6 = some (6, 573, 612) := by
  simp only [careLabelColumn]
  norm_num [min_def, max_def]

theorem careLabelColumn_612_7 : careLabelColumn 88 45 612 7 = none := by
  simp only [careLabelColumn]
  norm_num [min_def, max_def]

/-- Claim C5 counterexample: on a page of width 612, the width of a letter
size page, the care-label segmenter retains only six regions, positions 1 to
6, because the clamped right edge of column 7 equals its clamped left
edge. -/
theorem c5_counterexample_letter_width_page :
    careLabelPositions 8 true 88 45 612 = [1, 2, 3, 4, 5, 6] ∧
    careLabelPositions 8 true 88 45 612 ≠ [1, 2, 3, 4, 5, 6, 7] := by
  constructor
  · unfold careLabelPositions careLabelRegions
    rw [show List.range 8 = [0, 1, 2, 3, 4, 5, 6, 7] from rfl]
    simp only [List.filterMap_cons, List.filterMap_nil]
    norm_num [careLabelColumn_612_6, careLabelColumn_612_7,
      careLabelColumn_of_wide 612 1 (by norm_num),
      careLabelColumn_of_wide 612 2 (by norm_num),
      careLabelColumn_of_wide 612 3 (by norm_num),
      careLabelColumn_of_wide 612 4 (by norm_num),
      careLabelColumn_of_wide 612 5 (by norm_num)]
  · unfold careLabelPositions careLabelRegions
    rw [show List.range 8 = [0, 1, 2, 3, 4, 5, 6, 7] from rfl]
    simp only [List.filterMap_cons, List.filterMap_nil]
    norm_num [careLabelColumn_612_6, careLabelColumn_612_7,
      careLabelColumn_of_wide 612 1 (by norm_num),
      careLabelColumn_of_wide 612 2 (by norm_num),
      careLabelColumn_of_wide 612 3 (by norm_num),
      careLabelColumn_of_wide 612 4 (by norm_num),
      careLabelColumn_of_wide 612 5 (by norm_num)]

/-- Claim C5 (amended): with columns 8 and the first column skipped, the
hang-tag segmenter yields exactly seven regions, positions 1 to 7, on every
page; the care-label segmenter with its default column width 88 and left
offset 45 yields positions 1 to 7 exactly when the page is at least 749
units wide, every retained position always lies between 1 and 7, and a
column is dropped only through the clamped-edge test of careLabelColumn. -/
theorem c5_segmenter_positions :
    (∀ w : ℚ, hangTagPositions 8 true w = [1, 2, 3, 4, 5, 6, 7]) ∧
    (∀ w : ℚ, 749 ≤ w →
      careLabelPositions 8 true 88 45 w = [1, 2, 3, 4, 5, 6, 7]) ∧
    (∀ w : ℚ, ∀ p ∈ careLabelPositions 8 true 88 45 w, 1 ≤ p ∧ p ≤ 7) := by
  refine ⟨fun w => rfl, ?_, ?_⟩
  · intro w h
    unfold careLabelPositions careLabelRegions
    rw [show List.range 8 = [0, 1, 2, 3, 4, 5, 6, 7] from rfl]
    simp only [List.filterMap_cons, List.filterMap_nil]
    norm_num [careLabelColumn_of_wide w 1 (by push_cast; linarith),
      careLabelColumn_of_wide w 2 (by push_cast; linarith),
      careLabelColumn_of_wide w 3 (by push_cast; linarith),
      careLabelColumn_of_wide w 4 (by push_cast; linarith),
      careLabelColumn_of_wide w 5 (by push_cast; linarith),
      careLabelColumn_of_wide w 6 (by push_cast; linarith),
      careLabelColumn_of_wide w 7 (by push_cast; linarith)]
  · intro w p hp
    unfold careLabelPositions careLabelRegions at hp
    simp only [List.mem_map, List.mem_filterMap, List.mem_range] at hp
    obtain ⟨⟨j, x0, x1⟩, ⟨i, hi, hf⟩, rfl⟩ := hp
    norm_num at hf
    obtain ⟨h0, hf⟩ := hf
    simp only [careLabelColumn] at hf
    split at hf
    · exact absurd hf (by simp)
    · simp only [Option.some.injEq, Prod.mk.injEq] at hf
      obtain ⟨rfl, -⟩ := hf
      exact ⟨by omega, by omega⟩

/-- Witness for claim C5: on an 800 unit wide page the care-label segmenter
retains all seven positions. -/
theorem c5_segmenter_positions_witness :
    (749 : ℚ) ≤ 800 ∧
    careLabelPositions 8 true 88 45 800 = [1, 2, 3, 4, 5, 6, 7] :=
  ⟨by norm_num, c5_segmenter_positions.2.1 800 (by norm_num)⟩

/-! Claim C8.  A record never holds both upc and upc_candidate, upc is
always checksum-valid and upc_candidate always checksum-invalid. -/

theorem extract_valid_upc_cases (t : String) :
    extract_valid_upc t = "" ∨
    (extract_valid_upc t = extract_upc_candidate t ∧
     is_valid_upc_ean (extract_upc_candidate t) = true) := by
  unfold extract_valid_upc
  by_cases hc : extract_upc_candidate t = ""
  · left; simp [hc]
  · rw [if_neg hc]
    by_cases hv : is_valid_upc_ean (extract_upc_candidate t) = true
    · right; rw [if_pos hv]; exact ⟨rfl, hv⟩
    · left; rw [if_neg hv]

theorem extract_valid_upc_empty (t : String)
    (h : extract_valid_upc t = "") (hc : extract_upc_candidate t ≠ "") :
    is_valid_upc_ean (extract_upc_candidate t) = false := by
  unfold extract_valid_upc at h
  rw [if_neg hc] at h
  by_cases hv : is_valid_upc_ean (extract_upc_candidate t) = true
  · rw [if_pos hv] at h; exact absurd h hc
  · simpa using hv

/-- Invariant of the shared upc and upc_candidate field construction used by
both extractors. -/
theorem upc_pair_invariant (n : String) :
    (¬((optOfString (extract_valid_upc n)).isSome = true ∧
        (if extract_valid_upc n = "" then optOfString (extract_upc_candidate n)
         else none).isSome = true)) ∧
    (∀ u, optOfString (extract_valid_upc n) = some u →
      is_valid_upc_ean u = true) ∧
    (∀ u, (if extract_valid_upc n = ""
           then optOfString (extract_upc_candidate n) else none) = some u →
      is_valid_upc_ean u = false) := by
  by_cases h : extract_valid_upc n = ""
  · refine ⟨?_, ?_, ?_⟩
    · simp [h, optOfString]
    · intro u hu; simp [h, optOfString] at hu
    · intro u hu
      rw [if_pos h] at hu
      unfold optOfString at hu
      split at hu
      · exact absurd hu (by simp)
      · next hc =>
        injection hu with hu
        subst hu
        exact extract_valid_upc_empty n h hc
  · refine ⟨?_, ?_, ?_⟩
    · rw [if_neg h]; simp
    · intro u hu
      unfold optOfString at hu
      split at hu
      · exact absurd hu (by simp)
      · injection hu with hu
        subst hu
        rcases extract_valid_upc_cases n with h0 | ⟨he, hv⟩
        · exact absurd h0 h
        · rw [he]; exact hv
    · intro u hu
      rw [if_neg h] at hu
      exact absurd hu (by simp)

/-- Claim C8: for every input text (and any decoded barcodes for the tag
extractor), the produced record never carries both upc and upc_candidate,
every upc value passes the checksum validator, and every upc_candidate value
fails it. -/
theorem c8_upc_candidate_invariant :
    ∀ (text : String) (barcodes : List String),
      (¬((extract_care_label_info text).upc.isSome = true ∧
          (extract_care_label_info text).upc_candidate.isSome = true)) ∧
      (∀ u, (extract_care_label_info text).upc = some u →
        is_valid_upc_ean u = true) ∧
      (∀ u, (extract_care_label_info text).upc_candidate = some u →
        is_valid_upc_ean u = false) ∧
      (¬((extract_tag_info text barcodes).upc.isSome = true ∧
          (extract_tag_info text barcodes).upc_candidate.isSome = true)) ∧
      (∀ u, (extract_tag_info text barcodes).upc = some u →
        is_valid_upc_ean u = true) ∧
      (∀ u, (extract_tag_info text barcodes).upc_candidate = some u →
        is_valid_upc_ean u = false) := by
  intro text barcodes
  have h := upc_pair_invariant (normalize_text text)
  simp only [extract_care_label_info, extract_tag_info]
  exact ⟨h.1, h.2.1, h.2.2, h.1, h.2.1, h.2.2⟩

/-- Witness for claim C8: a text whose candidate passes the checksum
populates upc with a checksum-valid code. -/
theorem c8_upc_candidate_invariant_witness :
    (extract_care_label_info "UPC 036000291452").upc = some "036000291452" ∧
    is_valid_upc_ean "036000291452" = true :=
  ⟨by decide,
   (c8_upc_candidate_invariant "UPC 036000291452" []).2.1 "036000291452" (by decide)⟩

/-! Claim C10.  Classifier scores, evidence, decision rule and
determinism. -/

theorem foldl_score (t : String) :
    ∀ (pats : List (String × (String → Bool))) (acc : List String × Nat),
      pats.foldl (fun acc p => if p.2 t then (acc.1 ++ [p.1], acc.2 + 1) else acc)
          acc =
        (acc.1 ++ (pats.filter (fun p => p.2 t)).map Prod.fst,
         acc.2 + pats.countP (fun p => p.2 t)) := by
  intro pats
  induction pats with
  | nil => intro acc; simp
  | cons p ps ih =>
    intro acc
    simp only [List.foldl_cons, List.filter_cons, List.countP_cons]
    by_cases hp : p.2 t = true
    · rw [if_pos hp, ih]
      refine Prod.ext ?_ ?_
      · simp [hp]
      · simp [hp]
        omega
    · rw [if_neg hp, ih]
      refine Prod.ext ?_ ?_
      · simp [hp]
      · simp [hp]

theorem scorePatterns_eq (pats : List (String × (String → Bool))) (t : String) :
    scorePatterns pats t =
      ((pats.filter (fun p => p.2 t)).map Prod.fst,
       pats.countP (fun p => p.2 t)) := by
  unfold scorePatterns
  rw [foldl_score]
  simp

/-- Claim C10: the care and rfid scores equal the number of patterns of the
respective fixed list matching the normalised text, each matched pattern is
recorded as evidence, the type is unknown exactly when both scores are zero,
otherwise care_label exactly when the care score is at least the rfid score
(so equal nonzero scores give care_label) and rfid exactly when the care
score is strictly below the rfid score, and identical text yields an
identical result. -/
theorem c10_classifier_scores :
    ∀ text : String,
      (classify_text text).care_score =
        care_patterns.countP (fun p => p.2 (normalize_text text)) ∧
      (classify_text text).rfid_score =
        rfid_patterns.countP (fun p => p.2 (normalize_text text)) ∧
      (classify_text text).care_evidence =
        (care_patterns.filter (fun p => p.2 (normalize_text text))).map Prod.fst ∧
      (classify_text text).rfid_evidence =
        (rfid_patterns.filter (fun p => p.2 (normalize_text text))).map Prod.fst ∧
      ((classify_text text).type = "unknown" ↔
        (classify_text text).care_score = 0 ∧
        (classify_text text).rfid_score = 0) ∧
      (¬((classify_text text).care_score = 0 ∧
          (classify_text text).rfid_score = 0) →
        ((classify_text text).type = "care_label" ↔
          (classify_text text).rfid_score ≤ (classify_text text).care_score)) ∧
      (¬((classify_text text).care_score = 0 ∧
          (classify_text text).rfid_score = 0) →
        ((classify_text text).type = "rfid" ↔
          (classify_text text).care_score < (classify_text text).rfid_score)) ∧
      classify_text text = classify_text text := by
  intro t
  simp only [classify_text, scorePatterns_eq]
  refine ⟨trivial, trivial, trivial, trivial, ?_, ?_, ?_, trivial⟩
  · by_cases h : (care_patterns.countP fun p => p.2 (normalize_text t)) = 0 ∧
        (rfid_patterns.countP fun p => p.2 (normalize_text t)) = 0
    · simp [h]
    · rw [if_neg h]
      constructor
      · intro he
        by_cases hr : (rfid_patterns.countP fun p => p.2 (normalize_text t)) ≤
            (care_patterns.countP fun p => p.2 (normalize_text t))
        · rw [if_pos hr] at he
          exact absurd he (by decide)
        · rw [if_neg hr] at he
          exact absurd he (by decide)
      · intro hc
        exact absurd hc h
  · intro h
    rw [if_neg h]
    by_cases hr : (rfid_patterns.countP fun p => p.2 (normalize_text t)) ≤
        (care_patterns.countP fun p => p.2 (normalize_text t))
    · rw [if_pos hr]
      simp [hr]
    · rw [if_neg hr]
      constructor
      · intro he
        exact absurd he (by decide)
      · intro hle
        exact absurd hle hr
  · intro h
    rw [if_neg h]
    by_cases hr : (rfid_patterns.countP fun p => p.2 (normalize_text t)) ≤
        (care_patterns.countP fun p => p.2 (normalize_text t))
    · rw [if_pos hr]
      constructor
      · intro he
        exact absurd he (by decide)
      · intro hlt
        exact absurd hlt (by omega)
    · rw [if_neg hr]
      constructor
      · intro _
        omega
      · intro _
        rfl

/-- Witness for claim C10: the text RN# 123 scores one care pattern and no
rfid pattern and its type is care_label; the text BLACK SOOT REGISTERED
TRADEMARK scores two rfid patterns and no care pattern and its type is
rfid. -/
theorem c10_classifier_scores_witness :
    (¬((classify_text "RN# 123").care_score = 0 ∧
        (classify_text "RN# 123").rfid_score = 0) ∧
     ((classify_text "RN# 123").type = "care_label" ↔
       (classify_text "RN# 123").rfid_score ≤ (classify_text "RN# 123").care_score)) ∧
    (¬((classify_text "BLACK SOOT REGISTERED TRADEMARK").care_score = 0 ∧
        (classify_text "BLACK SOOT REGISTERED TRADEMARK").rfid_score = 0) ∧
     ((classify_text "BLACK SOOT REGISTERED TRADEMARK").type = "rfid" ↔
       (classify_text "BLACK SOOT REGISTERED TRADEMARK").care_score <
         (classify_text "BLACK SOOT REGISTERED TRADEMARK").rfid_score)) :=
  ⟨⟨by decide, (c10_classifier_scores "RN# 123").2.2.2.2.2.1 (by decide)⟩,
   ⟨by decide,
    (c10_classifier_scores "BLACK SOOT REGISTERED TRADEMARK").2.2.2.2.2.2.1
      (by decide)⟩⟩

/-! Claim C6.  Matching priority order. -/

theorem matchItem_eq (items : List Item) (s z c : String) :
    matchItem items s z c =
      (match items.find? (matchPred1 s z c) with
      | some it => (some it, "style+size+color")
      | none =>
        match items.find? (matchPred2 s z) with
        | some it => (some it, "style+size")
        | none =>
          match items.find? (matchPred3 s c) with
          | some it => (some it, "style+color")
          | none =>
            match items.find? (matchPred4 s) with
            | some it => (some it, "style")
            | none => (none, "none")) := by
  unfold matchItem
  by_cases h : items.isEmpty = true
  · have he : items = [] := List.isEmpty_iff.mp h
    subst he
    simp [List.find?]
  · rw [if_neg h]

theorem matchPred1_imp_pred4 (s z c : String) (x : Item)
    (h : matchPred1 s z c x = true) : matchPred4 s x = true := by
  simp only [matchPred1, Bool.and_eq_true] at h
  simp only [matchPred4, Bool.and_eq_true]
  exact ⟨h.1.1.1, h.2⟩

theorem matchPred2_imp_pred4 (s z : String) (x : Item)
    (h : matchPred2 s z x = true) : matchPred4 s x = true := by
  simp only [matchPred2, Bool.and_eq_true] at h
  simp only [matchPred4, Bool.and_eq_true]
  exact ⟨h.1.1, h.2⟩

theorem matchPred3_imp_pred4 (s c : String) (x : Item)
    (h : matchPred3 s c x = true) : matchPred4 s x = true := by
  simp only [matchPred3, Bool.and_eq_true] at h
  simp only [matchPred4, Bool.and_eq_true]
  exact ⟨h.1.1, h.2⟩

/-- Claim C6: the matcher tries the four key rules in fixed priority order,
each requiring non-empty style; the first item in iteration order satisfying
the highest-priority rule satisfied by any item is returned with that level;
with an empty style, or when no item satisfies any rule, no item is returned
and the level is none. -/
theorem c6_match_priority_order :
    ∀ (items : List Item) (style size color : String),
      (style = "" → matchItem items style size color = (none, "none")) ∧
      (∀ it, items.find? (matchPred1 style size color) = some it →
        matchItem items style size color = (some it, "style+size+color")) ∧
      (items.find? (matchPred1 style size color) = none →
        ∀ it, items.find? (matchPred2 style size) = some it →
          matchItem items style size color = (some it, "style+size")) ∧
      (items.find? (matchPred1 style size color) = none →
        items.find? (matchPred2 style size) = none →
        ∀ it, items.find? (matchPred3 style color) = some it →
          matchItem items style size color = (some it, "style+color")) ∧
      (items.find? (matchPred1 style size color) = none →
        items.find? (matchPred2 style size) = none →
        items.find? (matchPred3 style color) = none →
        ∀ it, items.find? (matchPred4 style) = some it →
          matchItem items style size color = (some it, "style")) ∧
      (items.find? (matchPred4 style) = none →
        matchItem items style size color = (none, "none")) := by
  intro items style size color
  refine ⟨?_, ?_, ?_, ?_, ?_, ?_⟩
  · intro hs
    subst hs
    rw [matchItem_eq,
      List.find?_eq_none.mpr (fun x _ => by simp [matchPred1]),
      List.find?_eq_none.mpr (fun x _ => by simp [matchPred2]),
      List.find?_eq_none.mpr (fun x _ => by simp [matchPred3]),
      List.find?_eq_none.mpr (fun x _ => by simp [matchPred4])]
  · intro it h1
    rw [matchItem_eq, h1]
  · intro h1 it h2
    rw [matchItem_eq, h1, h2]
  · intro h1 h2 it h3
    rw [matchItem_eq, h1, h2, h3]
  · intro h1 h2 h3 it h4
    rw [matchItem_eq, h1, h2, h3, h4]
  · intro h4
    have hnone : ∀ x ∈ items, ¬matchPred4 style x = true := List.find?_eq_none.mp h4
    rw [matchItem_eq,
      List.find?_eq_none.mpr
        (fun x hx h => hnone x hx (matchPred1_imp_pred4 _ _ _ _ h)),
      List.find?_eq_none.mpr
        (fun x hx h => hnone x hx (matchPred2_imp_pred4 _ _ _ h)),
      List.find?_eq_none.mpr
        (fun x hx h => hnone x hx (matchPred3_imp_pred4 _ _ _ h)),
      h4]

/-- Witness for claim C6, mirroring the reconciliation priority scenario of
the specification: with one item matching style and size only listed first
and one item matching style, size and colour listed second, the matcher
selects the second item at level style+size+color. -/
theorem c6_match_priority_order_witness :
    matchItem
      [⟨some "AV1", some "M", none, none, none, none⟩,
       ⟨some "AV1", some "M", some "BLACK SOOT", none, none, none⟩]
      "AV1" "M" "BLACK SOOT" =
      (some ⟨some "AV1", some "M", some "BLACK SOOT", none, none, none⟩,
       "style+size+color") :=
  (c6_match_priority_order
    [⟨some "AV1", some "M", none, none, none, none⟩,
     ⟨some "AV1", some "M", some "BLACK SOOT", none, none, none⟩]
    "AV1" "M" "BLACK SOOT").2.1
    ⟨some "AV1", some "M", some "BLACK SOOT", none, none, none⟩ (by decide)

/-! Claim C7.  UPC comparison flag and summary counts. -/

theorem sideResult_spec (items : List Item) (style size color : String)
    (expected : Option String) :
    ((sideResult items style size color expected).upc_matches = true ↔
      ((sideResult items style size color expected).upc_expected ≠ "" ∧
       (sideResult items style size color expected).upc_actual ≠ "" ∧
       (sideResult items style size color expected).upc_expected =
         (sideResult items style size color expected).upc_actual)) ∧
    (sideResult items style size color expected).upc_expected =
      normalizeUpc expected ∧
    (sideResult items style size color expected).upc_actual =
      (match (sideResult items style size color expected).item with
      | some it => normalizeUpc it.upc
      | none => "") ∧
    ((sideResult items style size color expected).item = none →
      (sideResult items style size color expected).upc_matches = false) := by
  simp only [sideResult]
  refine ⟨?_, trivial, ?_, ?_⟩
  · simp [Bool.and_eq_true, ne_eq]
    tauto
  · cases hm : (matchItem items style size color).1 with
    | none => simp [normalizeUpc]
    | some it => simp
  · intro hnone
    rw [hnone]
    simp [normalizeUpc]

/-- Claim C7: in every produced result, upc_matches is true exactly when the
digits-only normalisations of the expected and matched UPC are both
non-empty and equal, it is false when no item matched, and the summary
counts the rows whose care-label and hang-tag flags are true. -/
theorem c7_upc_match_and_counts :
    ∀ (rows : List Row) (care_labels hang_tags : List Item),
      (∀ r ∈ (validate_rows rows care_labels hang_tags).results,
        ((r.care_label.upc_matches = true ↔
          (r.care_label.upc_expected ≠ "" ∧ r.care_label.upc_actual ≠ "" ∧
            r.care_label.upc_expected = r.care_label.upc_actual)) ∧
         r.care_label.upc_expected = normalizeUpc r.row.care_upc ∧
         r.care_label.upc_actual = (match r.care_label.item with
           | some it => normalizeUpc it.upc
           | none => "") ∧
         (r.care_label.item = none → r.care_label.upc_matches = false)) ∧
        ((r.hang_tag.upc_matches = true ↔
          (r.hang_tag.upc_expected ≠ "" ∧ r.hang_tag.upc_actual ≠ "" ∧
            r.hang_tag.upc_expected = r.hang_tag.upc_actual)) ∧
         r.hang_tag.upc_expected = normalizeUpc r.row.hang_upc ∧
         r.hang_tag.upc_actual = (match r.hang_tag.item with
           | some it => normalizeUpc it.upc
           | none => "") ∧
         (r.hang_tag.item = none → r.hang_tag.upc_matches = false))) ∧
      (validate_rows rows care_labels hang_tags).summary.rows =
        (validate_rows rows care_labels hang_tags).results.length ∧
      (validate_rows rows care_labels hang_tags).summary.care_label_matches =
        ((validate_rows rows care_labels hang_tags).results.filter
          (fun r => r.care_label.upc_matches)).length ∧
      (validate_rows rows care_labels hang_tags).summary.hang_tag_matches =
        ((validate_rows rows care_labels hang_tags).results.filter
          (fun r => r.hang_tag.upc_matches)).length := by
  intro rows care_labels hang_tags
  refine ⟨?_, rfl, ?_, ?_⟩
  · intro r hr
    simp only [validate_rows, List.mem_map] at hr
    obtain ⟨row, -, rfl⟩ := hr
    exact ⟨sideResult_spec care_labels _ _ _ _, sideResult_spec hang_tags _ _ _ _⟩
  · simp [validate_rows, List.countP_eq_length_filter]
  · simp [validate_rows, List.countP_eq_length_filter]

/-- Witness for claim C7: a row with an expected UPC but no candidate item
gets upc_matches false. -/
theorem c7_upc_match_and_counts_witness :
    rowResult [] [] ⟨some "AV1", none, none, some "036000291452", none⟩ ∈
      (validate_rows [⟨some "AV1", none, none, some "036000291452", none⟩]
        [] []).results ∧
    (rowResult [] [] ⟨some "AV1", none, none, some "036000291452", none⟩).care_label.item = none ∧
    (rowResult [] [] ⟨some "AV1", none, none, some "036000291452", none⟩).care_label.upc_matches = false := by
  have h := (c7_upc_match_and_counts
    [⟨some "AV1", none, none, some "036000291452", none⟩] [] []).1
    (rowResult [] [] ⟨some "AV1", none, none, some "036000291452", none⟩)
    (by decide)
  exact ⟨by decide, by decide, h.1.2.2.2 (by decide)⟩

/-! Claim C1.  The checksum validator agrees with the reference check-digit
rule of the specification. -/

theorem listGetD_map_charDigit : ∀ (l : List Char) (i : Nat),
    (l.map charDigit).getD i 0 = charDigit (l.getD i '0')
  | [], 0 => rfl
  | [], _ + 1 => rfl
  | _ :: _, 0 => rfl
  | _ :: t, i + 1 => listGetD_map_charDigit t i

theorem c1_body_sum (cs : List Char) (n len : Nat) (h : cs.length = n + 1)
    (P : Nat → Prop) [DecidablePred P]
    (hw : ∀ i, refWeight len i = if P i then 3 else 1) :
    ((List.range n).map
      (fun i => if P i then ((cs.map charDigit).dropLast).getD i 0 * 3
                else ((cs.map charDigit).dropLast).getD i 0)).sum =
    ((List.range n).map
      (fun i => refWeight len i * charDigit (cs.getD i '0'))).sum := by
  congr 1
  apply List.map_congr_left
  intro i hi
  have hin : i < n := List.mem_range.mp hi
  have hdrop : ((cs.map charDigit).dropLast).getD i 0 = (cs.map charDigit).getD i 0 := by
    apply listGetD_dropLast
    simp only [List.length_map]
    omega
  rw [hdrop, listGetD_map_charDigit, hw i]
  by_cases hwi : P i
  · rw [if_pos hwi, if_pos hwi, Nat.mul_comm]
  · rw [if_neg hwi, if_neg hwi, Nat.one_mul]

/-- Claim C1: is_valid_upc_ean accepts a string exactly when it is all
digits, of length 12 or 13, and its last digit equals the reference check
digit of the specification; in particular 036000291452 is valid and
036000291453 is not. -/
theorem c1_is_valid_upc_ean_matches_reference :
    (∀ code : String, is_valid_upc_ean code = true ↔ refValid code) ∧
    is_valid_upc_ean "036000291452" = true ∧
    is_valid_upc_ean "036000291453" = false := by
  refine ⟨?_, by decide, by decide⟩
  intro code
  have hlen : code.length = code.data.length := rfl
  have hw12 : ∀ i, refWeight 12 i = if i % 2 = 0 then 3 else 1 := by
    intro i; simp [refWeight]
  have hw13 : ∀ i, refWeight 13 i = if i % 2 = 1 then 3 else 1 := by
    intro i; simp [refWeight]
  constructor
  · intro h
    unfold is_valid_upc_ean at h
    by_cases hd : pyIsDigit code.data = true
    swap
    · rw [if_pos (by simp [hd])] at h
      exact absurd h (by simp)
    rw [if_neg (by simp [hd])] at h
    have hne : code.data ≠ [] := by
      intro he
      rw [he] at hd
      simp [pyIsDigit] at hd
    have hall : ∀ c ∈ code.data, isAsciiDigit c = true := by
      have h2 := hd
      simp only [pyIsDigit, Bool.and_eq_true, List.all_eq_true] at h2
      exact h2.2
    obtain ⟨d, hlast⟩ : ∃ d, code.data.getLast? = some d := by
      cases hl : code.data.getLast? with
      | none => exact absurd (List.getLast?_eq_none_iff.mp hl) hne
      | some d => exact ⟨d, rfl⟩
    have hcheck : ((code.data.map charDigit).getLast?).getD 0 = charDigit d := by
      rw [List.getLast?_map, hlast]
      rfl
    by_cases h12 : code.data.length = 12
    · rw [if_pos h12] at h
      rw [beq_iff_eq, hcheck] at h
      refine ⟨hall, Or.inl (hlen ▸ h12), d, hlast, ?_⟩
      rw [hlen, h12, show (12 : Nat) - 1 = 11 from rfl,
        ← c1_body_sum code.data 11 12 (by omega) (fun i => i % 2 = 0) hw12]
      omega
    · by_cases h13 : code.data.length = 13
      · rw [if_neg h12, if_pos h13] at h
        rw [beq_iff_eq, hcheck] at h
        refine ⟨hall, Or.inr (hlen ▸ h13), d, hlast, ?_⟩
        rw [hlen, h13, show (13 : Nat) - 1 = 12 from rfl,
          ← c1_body_sum code.data 12 13 (by omega) (fun i => i % 2 = 1) hw13]
        omega
      · rw [if_neg h12, if_neg h13] at h
        exact absurd h (by simp)
  · rintro ⟨hall, hor, d, hlast, hck⟩
    have hne : code.data ≠ [] := by
      intro he
      rw [he] at hlast
      simp at hlast
    have hd : pyIsDigit code.data = true := by
      simp only [pyIsDigit, Bool.and_eq_true, List.all_eq_true]
      exact ⟨by simpa using hne, hall⟩
    have hcheck : ((code.data.map charDigit).getLast?).getD 0 = charDigit d := by
      rw [List.getLast?_map, hlast]
      rfl
    unfold is_valid_upc_ean
    rw [if_neg (by simp [hd])]
    rcases hor with h12 | h13
    · rw [hlen] at h12
      rw [if_pos h12, beq_iff_eq, hcheck]
      rw [hlen, h12, show (12 : Nat) - 1 = 11 from rfl,
        ← c1_body_sum code.data 11 12 (by omega) (fun i => i % 2 = 0) hw12] at hck
      omega
    · have hne12 : code.data.length ≠ 12 := by
        rw [hlen] at h13
        omega
      rw [hlen] at h13
      rw [if_neg hne12, if_pos h13, beq_iff_eq, hcheck]
      rw [hlen, h13, show (13 : Nat) - 1 = 12 from rfl,
        ← c1_body_sum code.data 12 13 (by omega) (fun i => i % 2 = 1) hw13] at hck
      omega

end UPCCodes
